import Mathlib

/-!
Verification of the resilient UI-interaction and session-bootstrap layer of a
Salesforce browser end-to-end test framework.

The embedding models the two components described by the specification:

* `SF` (from `src/tests/utils/salesforce-utils.ts`): the `SalesforceUtils`
  class — stability waits (`waitForSpinners`, `waitForPageLoad`), toast
  capture (`waitForToast`), multi-strategy element location (`clickButton`,
  `fillTextInput`, `fillCombobox`) and record-id extraction
  (`getCurrentRecordId`).
* `SF.CliApi` (from the SF-CLI variant of `SalesforceApiUtils`):
  `authenticate` via the `sf org display --json` provider, unconditional
  `loginViaFrontdoor`, and `restCall`.
* `SF.SoapApi` (from the SOAP variant of `SalesforceApiUtils`):
  `authenticate` via the SOAP login endpoint, `loginViaFrontdoor` and the
  impersonation helper `loginAsUser`.

The external world (browser page, CLI provider, SOAP endpoint, HTTP
responses, timers) is passed in explicitly: a page is a predicate telling
which selector strings currently have a visible first match, each bounded
wait is given its outcome (completed within budget or timed out) as a
boolean, and provider/HTTP responses are given as data.  Every function is
total and executable; a raised JavaScript error is an `Except.error`.
-/

namespace SF

/-! ## Substring primitives

`startsWithList` / `hasSub` model JavaScript's `String.includes` and
Playwright's `:has-text(...)` / Jest's `toContain` substring semantics on
explicit character lists.  Playwright `:has-text` is case-insensitive, which
`strHasCI` models by lower-casing both sides. -/

def startsWithList : List Char → List Char → Bool
  | [], _ => true
  | _ :: _, [] => false
  | a :: as, b :: bs => a == b && startsWithList as bs

def hasSub (needle : List Char) : List Char → Bool
  | [] => needle.isEmpty
  | h :: t => startsWithList needle (h :: t) || hasSub needle t

/-- `strHas hay needle`: `hay` contains `needle` as a contiguous substring. -/
def strHas (hay needle : String) : Bool :=
  hasSub needle.data hay.data

def lowerChars (s : String) : List Char :=
  s.data.map Char.toLower

/-- Case-insensitive containment, the semantics of Playwright `:has-text`. -/
def strHasCI (hay needle : String) : Bool :=
  hasSub (lowerChars needle) (lowerChars hay)

/-! ## Error model

The TypeScript layer throws plain `Error`s with distinguishing messages and
assertion errors from `expect(...)`; the spec names these conditions
(`ButtonNotFound`, `FieldNotFound`, `SeverityMismatch`, timeout errors).
Each distinct throw site gets a constructor. -/

inductive UtilError
  | buttonNotFound (label : String)
  | fieldNotFound (label : String)
  | fieldValueNotFound (label : String)
  | severityMismatch
  | timeout (what : String)
deriving DecidableEq, Repr

/-- A browser page, abstracted to which selector strings currently have a
visible first match (`locator(sel).first().isVisible()`). -/
structure UIPage where
  visible : String → Bool

/-! ## Bounded waits (`waitForSpinners`, `waitForPageLoad`)

Each elementary bounded wait either completes within its timeout budget
(`true`) or times out (`false`); a timed-out wait throws, modelled by
`boundedWait`.  A `.catch(() => ...)` around a wait is `swallowTimeout`. -/

def boundedWait (completedInTime : Bool) (what : String) : Except UtilError Unit :=
  if completedInTime then .ok () else .error (.timeout what)

def swallowTimeout (r : Except UtilError Unit) : Except UtilError Unit :=
  match r with
  | .ok _ => .ok ()
  | .error _ => .ok ()

/-- The six spinner selector patterns of `waitForSpinners`. -/
def spinnerSelectors : List String :=
  [".slds-spinner_container",
   ".slds-spinner",
   "[data-aura-rendered-by] .slds-spinner",
   ".forceSpinnerContainer",
   ".loadingSpinner",
   "lightning-spinner"]

/-- `waitForSpinners`: for each spinner selector, wait for the hidden state
with `timeout: config.timeouts.spinnerWait`, each wait wrapped in
`.catch(() => ...)`.  `cleared sel` says whether the wait on `sel` reached
the hidden state within its budget. -/
def waitForSpinners (cleared : String → Bool) : Except UtilError Unit :=
  (spinnerSelectors.foldl
    (fun acc sel => acc.bind fun _ => swallowTimeout (boundedWait (cleared sel) sel))
    (.ok ()))

/-- Outcomes of the elementary waits performed by `waitForPageLoad`. -/
structure PageLoadEnv where
  domContentLoaded : Bool
  networkIdle : Bool
  spinnersCleared : String → Bool
  mainContentVisible : Bool

/-- `waitForPageLoad`: `waitForLoadState('domcontentloaded')` (no catch),
then `waitForLoadState('networkidle').catch(...)`, then `waitForSpinners()`,
then a visibility wait on `.oneContent, .desktop` wrapped in `.catch(...)`. -/
def waitForPageLoad (env : PageLoadEnv) : Except UtilError Unit :=
  (boundedWait env.domContentLoaded "domcontentloaded").bind fun _ =>
  (swallowTimeout (boundedWait env.networkIdle "networkidle")).bind fun _ =>
  (waitForSpinners env.spinnersCleared).bind fun _ =>
  swallowTimeout (boundedWait env.mainContentVisible ".oneContent, .desktop")

/-! ## Toast capture (`waitForToast`) -/

inductive ToastType
  | success
  | error
  | warning
  | info
deriving DecidableEq, Repr

/-- The `typeMap` of `waitForToast`. -/
def typeMap : ToastType → String
  | .success => "slds-notify--success"
  | .error => "slds-notify--error"
  | .warning => "slds-notify--warning"
  | .info => "slds-notify--info"

/-- A visible toast banner: its `textContent()` (null modelled as `none`)
and the `class` attribute of its `.slds-notify, .forceToastMessage` node
(`getAttribute` null modelled as `none`). -/
structure Toast where
  messageText : Option String
  notifyClass : Option String
deriving DecidableEq, Repr

/-- Environment of one `waitForToast` call: whether the toast container
became visible within `config.timeouts.action`, the banner itself, and
whether the close-button click succeeded (the code ignores this outcome). -/
structure ToastEnv where
  appeared : Bool
  banner : Toast
  closeOk : Bool
deriving DecidableEq, Repr

/-- `waitForToast(expectedType?)`: waits for the toast container (no catch:
a timeout propagates), reads `textContent() || ''`, and if an expected type
was given and the class attribute is non-null (JavaScript truthiness: the
empty string also skips the check), asserts via
`expect(toastClass).toContain(typeMap[expectedType])` — a failed assertion
is the severity mismatch.  The closing click is `.catch(() => ...)`ed, so
its outcome (`closeOk`) is irrelevant. -/
def waitForToast (expectedType : Option ToastType) (env : ToastEnv) :
    Except UtilError String :=
  if env.appeared = false then .error (.timeout "div.toastContainer") else
  let messageText := env.banner.messageText.getD ""
  match expectedType with
  | none => .ok messageText
  | some ty =>
    match env.banner.notifyClass with
    | none => .ok messageText
    | some cls =>
      if cls = "" then .ok messageText
      else if strHas cls (typeMap ty) then .ok messageText
      else .error .severityMismatch

/-- The single severity the banner's style classification denotes, testing
the four style markers in `typeMap` declaration order. -/
def classifiedSeverity (b : Toast) : Option ToastType :=
  match b.notifyClass with
  | none => none
  | some cls =>
    if cls = "" then none
    else if strHas cls (typeMap .success) then some .success
    else if strHas cls (typeMap .error) then some .error
    else if strHas cls (typeMap .warning) then some .warning
    else if strHas cls (typeMap .info) then some .info
    else none

/-! ## Multi-strategy element location (`clickButton`, `fillTextInput`) -/

/-- The five button selector patterns of `clickButton`, in declaration
order. -/
def buttonSelectors (label : String) : List String :=
  ["button:has-text(\"" ++ label ++ "\")",
   "lightning-button:has-text(\"" ++ label ++ "\")",
   "a.slds-button:has-text(\"" ++ label ++ "\")",
   "input[value=\"" ++ label ++ "\"]",
   "[title=\"" ++ label ++ "\"]"]

/-- `clickButton(label)`: probe each selector's first match for visibility
in declaration order; click the first visible one (the result records which
selector was acted on); throw `Button with label "..." not found` if none
is visible. -/
def clickButton (page : UIPage) (label : String) : Except UtilError String :=
  match (buttonSelectors label).find? page.visible with
  | some sel => .ok sel
  | none => .error (.buttonNotFound label)

/-- The five input selector patterns of `fillTextInput`, in declaration
order. -/
def textInputSelectors (label : String) : List String :=
  ["lightning-input[field-label=\"" ++ label ++ "\"] input",
   "lightning-input-field[field-name*=\"" ++ label ++ "\"] input",
   "input[name=\"" ++ label ++ "\"]",
   "//label[contains(text(),\"" ++ label ++ "\")]/following::input[1]",
   "lightning-textarea[field-label=\"" ++ label ++ "\"] textarea"]

/-- The final fallback of `fillTextInput`: click a visible label and type. -/
def textLabelFallback (label : String) : String :=
  "label:has-text(\"" ++ label ++ "\"), span.slds-form-element__label:has-text(\"" ++ label ++ "\")"

/-- All structural strategies of `fillTextInput` in the order they are
tried: the five input selectors, then the click-label-and-type fallback. -/
def textStrategies (label : String) : List String :=
  textInputSelectors label ++ [textLabelFallback label]

/-- The act performed on the page by a successful `fillTextInput`. -/
inductive FillAction
  | clearAndFill (selector value : String)
  | clickAndType (selector value : String)
deriving DecidableEq, Repr

/-- The selector a fill action acted on. -/
def fillSelector : FillAction → String
  | .clearAndFill sel _ => sel
  | .clickAndType sel _ => sel

/-- `fillTextInput(label, value)`: try the five input selectors in order,
clearing and filling the first visible one; otherwise click a visible label
element and type; otherwise throw `Input field with label "..." not
found`. -/
def fillTextInput (page : UIPage) (label value : String) :
    Except UtilError FillAction :=
  match (textInputSelectors label).find? page.visible with
  | some sel => .ok (.clearAndFill sel value)
  | none =>
    if page.visible (textLabelFallback label) then
      .ok (.clickAndType (textLabelFallback label) value)
    else .error (.fieldNotFound label)

/-! ## Combobox fill (`fillCombobox`) -/

/-- The four combobox container patterns of `fillCombobox`. -/
def comboboxSelectors (label : String) : List String :=
  ["lightning-combobox[label=\"" ++ label ++ "\"]",
   "lightning-picklist[data-field=\"" ++ label ++ "\"]",
   "//label[contains(text(),\"" ++ label ++ "\")]/ancestor::lightning-combobox",
   "//span[contains(text(),\"" ++ label ++ "\")]/ancestor::lightning-combobox"]

/-- The form-element fallback locator of `fillCombobox`. -/
def comboFormElementFallback (label : String) : String :=
  "div.slds-form-element:has(label:has-text(\"" ++ label ++ "\")) lightning-base-combobox"

/-- The combobox-container search of `fillCombobox`: the four selectors in
order, then the form-element fallback. -/
def comboLocate (page : UIPage) (label : String) : Option String :=
  match (comboboxSelectors label).find? page.visible with
  | some sel => some sel
  | none =>
    if page.visible (comboFormElementFallback label) then
      some (comboFormElementFallback label)
    else none

/-- A rendered dropdown option: its `data-value` attribute and its visible
text. -/
structure ComboOption where
  dataValue : String
  text : String
deriving DecidableEq, Repr

/-- The option selector string
`lightning-base-combobox-item[data-value="v"], [role="option"]:has-text("v")`
the chosen option is clicked through. -/
def comboOptionSelector (value : String) : String :=
  "lightning-base-combobox-item[data-value=\"" ++ value ++
    "\"], [role=\"option\"]:has-text(\"" ++ value ++ "\")"

/-- Semantics of the option selector: an option matches when its
`data-value` equals the value exactly, or its visible text contains the
value (case-insensitive substring). -/
def comboOptionMatches (value : String) (o : ComboOption) : Bool :=
  o.dataValue == value || strHasCI o.text value

/-- What a successful `fillCombobox` did: clicked the control open, waited
`waitForTimeout(500)` for dropdown animation, then clicked the `.first()`
option matching the option selector. -/
structure ComboFillTrace where
  opened : Bool
  settleDelayMs : Nat
  selected : ComboOption
deriving DecidableEq, Repr

/-- `fillCombobox(label, value)`: locate the combobox container (throwing
`Combobox with label "..." not found` if no pattern matches), click it open,
wait the fixed 500 ms settle delay, then click the first option matched by
the option selector.  When no rendered option matches, the `click()` on the
empty locator waits out its bounded timeout and raises a timeout error. -/
def fillCombobox (page : UIPage) (options : List ComboOption)
    (label value : String) : Except UtilError ComboFillTrace :=
  match comboLocate page label with
  | none => .error (.fieldNotFound label)
  | some _ =>
    match options.find? (comboOptionMatches value) with
    | none => .error (.timeout (comboOptionSelector value))
    | some o => .ok ⟨true, 500, o⟩

/-! ## Record-id extraction (`getCurrentRecordId`)

`getCurrentRecordId` runs `url.match(/\/([a-zA-Z0-9]{15,18})\//)` and
returns the captured group or `''`.  The regex engine scans left to right;
at a position holding `'/'` the greedy quantifier matches the run of
alphanumeric characters that follows — backtracking succeeds exactly when
that maximal run has length 15–18 and is immediately followed by another
`'/'`. -/

def scanRecordId : List Char → Option (List Char)
  | [] => none
  | c :: rest =>
    if c = '/' then
      if 15 ≤ (rest.takeWhile Char.isAlphanum).length ∧
          (rest.takeWhile Char.isAlphanum).length ≤ 18 ∧
          (rest.dropWhile Char.isAlphanum).head? = some '/'
      then some (rest.takeWhile Char.isAlphanum)
      else scanRecordId rest
    else scanRecordId rest

/-- `getCurrentRecordId()`: the first regex match's captured group, or the
empty string when the regex does not match; it cannot throw. -/
def getCurrentRecordId (url : String) : String :=
  ⟨(scanRecordId url.data).getD []⟩

/-- The path segments of a URL in the ordinary sense: maximal runs between
`'/'` separators (used to state the specification's notion of "path
segment"; the final run, not followed by `'/'`, is a segment too). -/
def segmentsAux (cur : List Char) : List Char → List (List Char)
  | [] => [cur.reverse]
  | c :: rest =>
    if c = '/' then cur.reverse :: segmentsAux [] rest
    else segmentsAux (c :: cur) rest

def urlPathSegments (url : String) : List (List Char) :=
  segmentsAux [] url.data

/-- The record-identifier shape: 15–18 alphanumeric characters. -/
def idShape (s : List Char) : Bool :=
  15 ≤ s.length && s.length ≤ 18 && s.all Char.isAlphanum

/-- A run of 15–18 alphanumeric characters enclosed by `'/'` on both sides
somewhere in the URL — exactly the shape `getCurrentRecordId`'s regex can
match. -/
def EnclosedRecordId (url : String) (run : List Char) : Prop :=
  ∃ a b, url.data = a ++ '/' :: (run ++ '/' :: b) ∧
    15 ≤ run.length ∧ run.length ≤ 18 ∧ ∀ c ∈ run, Char.isAlphanum c = true

/-! ## API layer: shared error and credential model -/

/-- A credential as held by `SalesforceApiUtils`: access token plus
instance base URL. -/
structure Credential where
  accessToken : String
  instanceUrl : String
deriving DecidableEq, Repr

/-- The mutable per-instance credential cache (`this.accessToken`,
`this.instanceUrl`, both initialised to `''`). -/
structure ApiState where
  accessToken : String
  instanceUrl : String
deriving DecidableEq, Repr

/-- Errors the API layer can raise.  `credentialSource` groups the throws
for a failed or unparsable provider invocation, `credentialUnavailable` the
throw for a response without an access token, `soapAuthFailed` the SOAP
variant's single authentication error, `apiError` a non-ok REST response,
and `util` a propagated page-level error. -/
inductive SFError
  | credentialSource (msg : String)
  | credentialUnavailable (msg : String)
  | soapAuthFailed
  | apiError (msg : String)
  | util (e : UtilError)
deriving DecidableEq, Repr

/-! ## SF-CLI variant of `SalesforceApiUtils` -/

namespace CliApi

/-- Outcome of parsing the CLI output: no `{` found, `JSON.parse` threw, or
a parsed document with the optional `result.accessToken` and
`result.instanceUrl` fields (`none` covers both an absent `result` and an
absent field). -/
inductive CliParse
  | noJson
  | badJson (msg : String)
  | parsed (accessToken : Option String) (instanceUrl : Option String)
deriving DecidableEq, Repr

/-- Outcome of the `execSync('sf org display --json')` invocation. -/
inductive CliProvider
  | execFailure (msg : String)
  | output (parse : CliParse)
deriving DecidableEq, Repr

/-- External collaborators of one CLI-variant operation: the provider
outcome and `config.salesforce.instanceUrl` (the fallback instance URL). -/
structure CliEnv where
  provider : CliProvider
  configInstanceUrl : String
deriving DecidableEq, Repr

/-- `authenticate()`: run the CLI provider; a failed invocation, missing
JSON or unparsable JSON throws (provider/source errors); a parsed document
whose `result?.accessToken` is absent or falsy (the empty string) throws
`No access token in SF CLI response`; otherwise cache
`accessToken`/`instanceUrl` (falling back to the configured instance URL
when `result.instanceUrl` is absent or falsy) and return them. -/
def authenticate (env : CliEnv) (st : ApiState) :
    ApiState × Except SFError Credential :=
  match env.provider with
  | .execFailure m => (st, .error (.credentialSource m))
  | .output .noJson => (st, .error (.credentialSource "No JSON found in SF CLI output"))
  | .output (.badJson m) => (st, .error (.credentialSource m))
  | .output (.parsed tok inst) =>
    match tok with
    | none => (st, .error (.credentialUnavailable "No access token in SF CLI response"))
    | some t =>
      if t = "" then (st, .error (.credentialUnavailable "No access token in SF CLI response"))
      else
        let instanceUrl :=
          match inst with
          | some i => if i = "" then env.configInstanceUrl else i
          | none => env.configInstanceUrl
        (⟨t, instanceUrl⟩, .ok ⟨t, instanceUrl⟩)

/-- `loginViaFrontdoor()`: unconditionally `await this.authenticate()`,
then `page.goto(instanceUrl + '/secur/frontdoor.jsp?sid=' + accessToken)`
(the returned string is the URL navigated to), then `waitForPageLoad()`. -/
def loginViaFrontdoor (env : CliEnv) (pl : PageLoadEnv) (st : ApiState) :
    ApiState × Except SFError String :=
  match authenticate env st with
  | (st1, .error e) => (st1, .error e)
  | (st1, .ok cred) =>
    let frontdoorUrl := cred.instanceUrl ++ "/secur/frontdoor.jsp?sid=" ++ cred.accessToken
    match waitForPageLoad pl with
    | .ok _ => (st1, .ok frontdoorUrl)
    | .error e => (st1, .error (.util e))

/-- An HTTP response: status code and body text. -/
structure HttpResponse where
  status : Nat
  bodyText : String
deriving DecidableEq, Repr

/-- `response.ok()`: status in the 200–299 range. -/
def respOk (r : HttpResponse) : Bool :=
  200 ≤ r.status && r.status < 300

/-- The message of the error thrown for a non-ok REST response. -/
def apiErrorMessage (status : Nat) (body : String) : String :=
  "Salesforce API error: " ++ toString status ++ " - " ++ body

/-- The value `restCall` resolves with: `{}` for a 204 response, otherwise
the parsed response body. -/
inductive RestValue
  | emptyObject
  | jsonBody (body : String)
deriving DecidableEq, Repr

/-- The response handling of `restCall` after the request was issued. -/
def restResponse (resp : HttpResponse) : Except SFError RestValue :=
  if respOk resp = false then
    .error (.apiError (apiErrorMessage resp.status resp.bodyText))
  else if resp.status = 204 then .ok .emptyObject
  else .ok (.jsonBody resp.bodyText)

/-- Everything observable about one `restCall`: whether `authenticate()`
was invoked, the final credential cache, and the call's outcome. -/
structure RestTrace where
  didAuthenticate : Bool
  finalState : ApiState
  result : Except SFError RestValue
deriving Repr

/-- `restCall(method, endpoint, data?)`: `if (!this.accessToken) await
this.authenticate()` (an empty cached token is falsy, so authentication is
triggered exactly when no token is cached; its error propagates), then
fetch (`resp` is the response the remote API returns) and handle the
response: non-ok throws `Salesforce API error: {status} - {text}`, 204
resolves with `{}`, anything else with the parsed body. -/
def restCall (env : CliEnv) (resp : HttpResponse) (st : ApiState) : RestTrace :=
  if st.accessToken = "" then
    match authenticate env st with
    | (st1, .error e) => ⟨true, st1, .error e⟩
    | (st1, .ok _) => ⟨true, st1, restResponse resp⟩
  else ⟨false, st, restResponse resp⟩

end CliApi

/-! ## SOAP variant of `SalesforceApiUtils` -/

namespace SoapApi

/-- The mutable `config.salesforce` record as seen by the SOAP variant:
`username` and `password` (temporarily overridden by `loginAsUser`) and the
configured fallback `instanceUrl`. -/
structure SoapConfig where
  username : String
  password : String
  instanceUrl : String
deriving DecidableEq, Repr

/-- Full state of a SOAP-variant instance: the shared mutable config plus
the per-instance credential cache. -/
structure SoapState where
  config : SoapConfig
  accessToken : String
  instanceUrl : String
deriving DecidableEq, Repr

/-- The SOAP login response, abstracted to the two values the code extracts
with `match(/<sessionId>(.*?)<\/sessionId>/)` and
`match(/<serverUrl>(.*?)<\/serverUrl>/)`: `none` models a response in which
the tag is absent. -/
structure SoapResponse where
  sessionId : Option String
  serverUrl : Option String
deriving DecidableEq, Repr

/-- The `(https:\/\/[^/]+)` extraction applied to the server URL: scan left
to right for a position starting with `https://` followed by at least one
non-`'/'` character and return `https://` plus that greedy run. -/
def hostScan : List Char → Option (List Char)
  | [] => none
  | c :: rest =>
    if startsWithList "https://".data (c :: rest) then
      let tail := (c :: rest).drop 8
      let run := tail.takeWhile (fun ch => ch ≠ '/')
      if run.isEmpty then hostScan rest else some ("https://".data ++ run)
    else hostScan rest

def extractHttpsOrigin (s : String) : Option String :=
  (hostScan s.data).map fun l => ⟨l⟩

/-- `authenticate()` (SOAP): POST the login envelope built from
`config.salesforce.username`/`password` (the `soap` oracle gives the
endpoint's response to those credentials); if either `<sessionId>` or
`<serverUrl>` is missing, throw `Failed to authenticate with Salesforce
SOAP API` with the cache untouched; otherwise cache the session id as
access token and the `https://host` part of the server URL (falling back to
the configured instance URL) and return both. -/
def authenticate (soap : String → String → SoapResponse) (st : SoapState) :
    SoapState × Except SFError Credential :=
  let resp := soap st.config.username st.config.password
  match resp.sessionId, resp.serverUrl with
  | some sid, some su =>
    let instanceUrl := (extractHttpsOrigin su).getD st.config.instanceUrl
    ({ st with accessToken := sid, instanceUrl := instanceUrl }, .ok ⟨sid, instanceUrl⟩)
  | some _, none => (st, .error .soapAuthFailed)
  | none, _ => (st, .error .soapAuthFailed)

/-- `loginViaFrontdoor()` (SOAP): unconditionally `authenticate()`, then
navigate to `{instanceUrl}/secur/frontdoor.jsp?sid={accessToken}`, then
`waitForPageLoad()`. -/
def loginViaFrontdoor (soap : String → String → SoapResponse)
    (pl : PageLoadEnv) (st : SoapState) : SoapState × Except SFError String :=
  match authenticate soap st with
  | (st1, .error e) => (st1, .error e)
  | (st1, .ok cred) =>
    let frontdoorUrl := cred.instanceUrl ++ "/secur/frontdoor.jsp?sid=" ++ cred.accessToken
    match waitForPageLoad pl with
    | .ok _ => (st1, .ok frontdoorUrl)
    | .error e => (st1, .error (.util e))

/-- `loginAsUser(username, password)`: save `config.salesforce.username`
and `.password`, override them with the alternate identity, `try`
`loginViaFrontdoor()` and in the `finally` block restore the two saved
config fields — whatever the outcome.  Nothing else is saved or
restored. -/
def loginAsUser (soap : String → String → SoapResponse) (pl : PageLoadEnv)
    (username password : String) (st : SoapState) :
    SoapState × Except SFError String :=
  let originalUsername := st.config.username
  let originalPassword := st.config.password
  let st1 : SoapState :=
    { st with config := { st.config with username := username, password := password } }
  let r := loginViaFrontdoor soap pl st1
  ({ r.1 with
      config := { r.1.config with
                    username := originalUsername, password := originalPassword } },
   r.2)

end SoapApi

/-- Decidable equality of outcomes, so concrete runs can be checked by
`decide`. -/
instance instDecEqExcept {ε α : Type} [DecidableEq ε] [DecidableEq α] :
    DecidableEq (Except ε α) := fun a b =>
  match a, b with
  | .error e, .error f =>
    if h : e = f then .isTrue (congrArg Except.error h)
    else .isFalse fun hh => h (Except.error.inj hh)
  | .error _, .ok _ => .isFalse fun hh => Except.noConfusion hh
  | .ok _, .error _ => .isFalse fun hh => Except.noConfusion hh
  | .ok x, .ok y =>
    if h : x = y then .isTrue (congrArg Except.ok h)
    else .isFalse fun hh => h (Except.ok.inj hh)

/-! ## Concrete fixtures for witnesses and counterexamples -/

/-- A run in which every elementary bounded wait completes in time. -/
def plAllOk : PageLoadEnv := ⟨true, true, fun _ => true, true⟩

/-- A SOAP endpoint that issues a distinct session for the alternate user
`alt`. -/
def altSoapOracle : String → String → SoapApi.SoapResponse := fun u _ =>
  if u = "alt" then ⟨some "altTok", some "https://alt.example/services/Soap"⟩
  else ⟨some "adminTok", some "https://inst.example/services/Soap"⟩

/-- An admin-identity state holding an already-cached admin credential. -/
def adminSoapState : SoapApi.SoapState :=
  ⟨⟨"admin", "pw", "https://cfg.example"⟩, "adminTok", "https://inst.example"⟩

/-- A CLI provider handing out a fresh token. -/
def freshCliEnv : CliApi.CliEnv :=
  ⟨.output (.parsed (some "freshTok") (some "https://fresh.example")), "https://cfg.example"⟩

/-- An API state that already holds a cached credential. -/
def cachedApiState : ApiState := ⟨"cachedTok", "https://inst.example"⟩

/-- A page on which every selector has a visible match. -/
def allVisiblePage : UIPage := ⟨fun _ => true⟩

/-- A page on which no selector has a visible match. -/
def noMatchPage : UIPage := ⟨fun _ => false⟩

/-- A visible banner styled as an error toast. -/
def errorToastEnv : ToastEnv :=
  ⟨true, ⟨some "Something went wrong", some "slds-notify slds-notify--error slds-notify--toast"⟩, true⟩

/-- A visible banner styled as a success toast. -/
def successToastEnv : ToastEnv :=
  ⟨true, ⟨some "Opportunity created", some "slds-notify slds-notify--success slds-notify--toast"⟩, false⟩

/-! ## Helper lemmas -/

theorem swallowTimeout_eq (r : Except UtilError Unit) : swallowTimeout r = .ok () := by
  cases r <;> rfl

theorem waitForSpinners_ok (cleared : String → Bool) :
    waitForSpinners cleared = .ok () := by
  simp [waitForSpinners, spinnerSelectors, swallowTimeout_eq, Except.bind]

theorem strData_append (x y : String) : (x ++ y).data = x.data ++ y.data := by
  cases x; cases y; rfl

theorem startsWithList_self_append (n b : List Char) :
    startsWithList n (n ++ b) = true := by
  induction n with
  | nil => rfl
  | cons c cs ih => simp [startsWithList, ih]

theorem hasSub_nil_needle (l : List Char) : hasSub [] l = true := by
  induction l with
  | nil => rfl
  | cons c cs ih => simp [hasSub, startsWithList]

theorem hasSub_mid (a n b : List Char) : hasSub n (a ++ n ++ b) = true := by
  induction a with
  | nil =>
    cases n with
    | nil => simpa using hasSub_nil_needle b
    | cons c cs =>
      simp only [List.nil_append, List.cons_append]
      simp only [hasSub, Bool.or_eq_true]
      exact Or.inl (by simpa using startsWithList_self_append (c :: cs) b)
  | cons c cs ih =>
    simp only [List.cons_append]
    simp only [hasSub, Bool.or_eq_true]
    exact Or.inr (by simpa [List.append_assoc] using ih)

theorem strHas_mid (A s B : String) : strHas (A ++ s ++ B) s = true := by
  show hasSub s.data (A ++ s ++ B).data = true
  rw [strData_append, strData_append]
  exact hasSub_mid A.data s.data B.data

/-- Characterisation of `List.find?` success: the found element is the
first in list order to satisfy the predicate. -/
theorem find?_eq_some_first {α : Type} (p : α → Bool) :
    ∀ (l : List α) (a : α),
      l.find? p = some a ↔
        ∃ l₁ l₂, l = l₁ ++ a :: l₂ ∧ p a = true ∧ ∀ x ∈ l₁, p x = false := by
  intro l
  induction l with
  | nil =>
    intro a
    constructor
    · intro h; simp [List.find?] at h
    · rintro ⟨l₁, l₂, heq, -, -⟩
      exact absurd heq (by simp)
  | cons h t ih =>
    intro a
    constructor
    · intro hf
      by_cases hp : p h = true
      · rw [List.find?_cons_of_pos _ hp] at hf
        obtain rfl : h = a := by injection hf
        exact ⟨[], t, rfl, hp, by simp⟩
      · rw [List.find?_cons_of_neg _ hp] at hf
        obtain ⟨l₁, l₂, heq, hpa, hall⟩ := (ih a).mp hf
        refine ⟨h :: l₁, l₂, by simp [heq], hpa, ?_⟩
        intro x hx
        rcases List.mem_cons.mp hx with rfl | hx'
        · exact Bool.not_eq_true _ ▸ (by simpa using hp)
        · exact hall x hx'
    · rintro ⟨l₁, l₂, heq, hpa, hall⟩
      cases l₁ with
      | nil =>
        obtain ⟨rfl, rfl⟩ : h = a ∧ t = l₂ := by
          constructor <;> [injection heq; injection heq]
        exact List.find?_cons_of_pos _ hpa
      | cons b l₁' =>
        obtain ⟨rfl, ht⟩ : h = b ∧ t = l₁' ++ a :: l₂ := by
          constructor <;> [injection heq; injection heq]
        have hb : p h = false := hall h (List.mem_cons_self _ _)
        rw [List.find?_cons_of_neg _ (by simp [hb])]
        exact (ih a).mpr ⟨l₁', l₂, ht, hpa, fun x hx => hall x (List.mem_cons_of_mem _ hx)⟩

/-- `takeWhile` over a list starting with a fully-satisfying block stopped
by a failing element. -/
theorem takeWhile_append_block {p : Char → Bool} :
    ∀ (xs : List Char) (y : Char) (ys : List Char),
      (∀ c ∈ xs, p c = true) → p y = false →
      (xs ++ y :: ys).takeWhile p = xs ∧ (xs ++ y :: ys).dropWhile p = y :: ys := by
  intro xs
  induction xs with
  | nil =>
    intro y ys _ hy
    simp [List.takeWhile, List.dropWhile, hy]
  | cons c cs ih =>
    intro y ys hall hy
    have hc : p c = true := hall c (List.mem_cons_self _ _)
    have ihr := ih y ys (fun d hd => hall d (List.mem_cons_of_mem _ hd)) hy
    simp [List.takeWhile, List.dropWhile, hc, ihr.1, ihr.2]

theorem isSome_ite_some {α : Type} (c : Prop) [Decidable c] (x : α) (y : Option α)
    (hy : y.isSome = true) : (if c then some x else y).isSome = true := by
  split_ifs with h
  · rfl
  · exact hy

/-- Soundness of the record-id scan: a successful match is a 15–18
character alphanumeric run enclosed by `'/'` on both sides. -/
theorem scanRecordId_sound :
    ∀ (l run : List Char), scanRecordId l = some run →
      ∃ a b, l = a ++ '/' :: (run ++ '/' :: b) ∧
        15 ≤ run.length ∧ run.length ≤ 18 ∧ ∀ c ∈ run, Char.isAlphanum c = true := by
  intro l
  induction l with
  | nil => intro run h; simp [scanRecordId] at h
  | cons c rest ih =>
    intro run h
    by_cases hc : c = '/'
    · subst hc
      rw [scanRecordId, if_pos rfl] at h
      split_ifs at h with hg
      · obtain rfl : rest.takeWhile Char.isAlphanum = run := by injection h
        cases hdw : rest.dropWhile Char.isAlphanum with
        | nil => rw [hdw] at hg; simp at hg
        | cons d tl =>
          have hd : d = '/' := by
            have h2 := hg.2.2
            rw [hdw] at h2
            simpa using h2
          refine ⟨[], tl, ?_, hg.1, hg.2.1, ?_⟩
          · have hrest : rest = rest.takeWhile Char.isAlphanum ++ d :: tl := by
              rw [← hdw]; exact (List.takeWhile_append_dropWhile _ _).symm
            rw [hd] at hrest
            simp only [List.nil_append]
            exact congrArg (fun l => '/' :: l) hrest
          · intro x hx
            exact List.mem_takeWhile_imp hx
      · obtain ⟨a, b, heq, h15, h18, hall⟩ := ih run h
        exact ⟨'/' :: a, b, by simp [heq], h15, h18, hall⟩
    · rw [scanRecordId, if_neg hc] at h
      obtain ⟨a, b, heq, h15, h18, hall⟩ := ih run h
      exact ⟨c :: a, b, by simp [heq], h15, h18, hall⟩

/-- Completeness of the record-id scan: whenever the URL contains a 15–18
character alphanumeric run enclosed by `'/'` on both sides, the scan finds
a match. -/
theorem scanRecordId_complete :
    ∀ (a run b : List Char),
      15 ≤ run.length → run.length ≤ 18 → (∀ c ∈ run, Char.isAlphanum c = true) →
      (scanRecordId (a ++ '/' :: (run ++ '/' :: b))).isSome = true := by
  intro a
  induction a with
  | nil =>
    intro run b h15 h18 hall
    have hslash : Char.isAlphanum '/' = false := by decide
    obtain ⟨htake, hdrop⟩ := takeWhile_append_block run '/' b hall hslash
    simp only [List.nil_append]
    rw [scanRecordId, if_pos rfl, htake, hdrop]
    have hcond : 15 ≤ run.length ∧ run.length ≤ 18 ∧
        (('/' :: b : List Char)).head? = some '/' := ⟨h15, h18, rfl⟩
    rw [if_pos hcond]
    rfl
  | cons c a' ih =>
    intro run b h15 h18 hall
    simp only [List.cons_append]
    by_cases hc : c = '/'
    · subst hc
      rw [scanRecordId, if_pos rfl]
      exact isSome_ite_some _ _ _ (ih run b h15 h18 hall)
    · rw [scanRecordId, if_neg hc]
      exact ih run b h15 h18 hall

/-! ## Claims -/

/-- C1 (counterexample): `loginAsUser` does not restore the full prior
identity state.  Concretely, starting from an admin state that has cached
the admin's access token and instance URL, impersonating user `alt` whose
SOAP login succeeds leaves the alternate identity's token (`altTok`) cached
after completion — only the config username/password are restored, not the
cached Credential. -/
theorem loginAsUser_token_not_restored_counterexample :
    adminSoapState.accessToken = "adminTok"
    ∧ (SoapApi.loginAsUser altSoapOracle plAllOk "alt" "pw2" adminSoapState).2
        = .ok "https://alt.example/secur/frontdoor.jsp?sid=altTok"
    ∧ (SoapApi.loginAsUser altSoapOracle plAllOk "alt" "pw2" adminSoapState).1.accessToken
        = "altTok"
    ∧ ("altTok" : String) ≠ "adminTok" := by
  refine ⟨rfl, by decide, by decide, by decide⟩

/-- C1 (amended): for every SOAP endpoint behaviour, every page-load
outcome, every alternate identity and every starting state, `loginAsUser`
restores the overridden `config.salesforce.username` and `.password` after
completion — whether session establishment succeeded or raised — but only
those two fields; the cached access token and instance URL are whatever the
alternate identity's authentication left behind. -/
theorem loginAsUser_restores_config
    (soap : String → String → SoapApi.SoapResponse) (pl : PageLoadEnv)
    (username password : String) (st : SoapApi.SoapState) :
    (SoapApi.loginAsUser soap pl username password st).1.config.username
      = st.config.username
    ∧ (SoapApi.loginAsUser soap pl username password st).1.config.password
      = st.config.password :=
  ⟨rfl, rfl⟩

/-- C2 (counterexample): `loginViaFrontdoor` does not reuse a cached
Credential.  Starting from a state that already caches `cachedTok`, it
still invokes the provider and navigates with the freshly acquired token
`freshTok`, overwriting the cache. -/
theorem loginViaFrontdoor_ignores_cache_counterexample :
    cachedApiState.accessToken = "cachedTok"
    ∧ (CliApi.loginViaFrontdoor freshCliEnv plAllOk cachedApiState).2
        = .ok "https://fresh.example/secur/frontdoor.jsp?sid=freshTok"
    ∧ (CliApi.loginViaFrontdoor freshCliEnv plAllOk cachedApiState).1.accessToken
        = "freshTok"
    ∧ ("freshTok" : String) ≠ "cachedTok" := by
  refine ⟨rfl, by decide, by decide, by decide⟩

/-- C2 (amended): `loginViaFrontdoor` calls `authenticate` unconditionally
(the resulting cache state is the state `authenticate` leaves, whether or
not a Credential was already cached), and on successful authentication
directs the browser to
`{instanceBaseURL}/secur/frontdoor.jsp?sid={accessToken}` built from the
freshly acquired Credential. -/
theorem loginViaFrontdoor_always_authenticates
    (env : CliApi.CliEnv) (pl : PageLoadEnv) (st : ApiState) :
    (CliApi.loginViaFrontdoor env pl st).1 = (CliApi.authenticate env st).1
    ∧ ∀ cred, (CliApi.authenticate env st).2 = .ok cred →
        waitForPageLoad pl = .ok () →
        (CliApi.loginViaFrontdoor env pl st).2
          = .ok (cred.instanceUrl ++ "/secur/frontdoor.jsp?sid=" ++ cred.accessToken) := by
  constructor
  · rcases hauth : CliApi.authenticate env st with ⟨st1, r⟩
    rcases r with e | cred
    · simp [CliApi.loginViaFrontdoor, hauth]
    · rcases hw : waitForPageLoad pl with e2 | u <;>
        simp [CliApi.loginViaFrontdoor, hauth, hw]
  · intro cred hok hpl
    rcases hauth : CliApi.authenticate env st with ⟨st1, r⟩
    rw [hauth] at hok
    simp only at hok
    subst hok
    simp [CliApi.loginViaFrontdoor, hauth, hpl]

/-- Witness for `loginViaFrontdoor_always_authenticates` at a concrete
provider response, page-load outcome and cached state. -/
theorem loginViaFrontdoor_always_authenticates_witness :
    (CliApi.loginViaFrontdoor freshCliEnv plAllOk cachedApiState).2
      = .ok ("https://fresh.example" ++ "/secur/frontdoor.jsp?sid=" ++ "freshTok") :=
  (loginViaFrontdoor_always_authenticates freshCliEnv plAllOk cachedApiState).2
    ⟨"freshTok", "https://fresh.example"⟩ (by decide) (by decide)

/-- C3 (counterexample): a URL whose only 15–18 character alphanumeric path
segment is the final segment (not followed by a further `'/'`) makes
`getCurrentRecordId` return the empty string rather than that segment. -/
theorem getCurrentRecordId_trailing_counterexample :
    "ABCDEFGHIJKLMNO".data ∈ urlPathSegments "https://ex.com/ABCDEFGHIJKLMNO"
    ∧ idShape "ABCDEFGHIJKLMNO".data = true
    ∧ getCurrentRecordId "https://ex.com/ABCDEFGHIJKLMNO" = "" := by
  refine ⟨by decide, by decide, by decide⟩

/-- C3 (amended): `getCurrentRecordId` never raises (it is a total
function); it returns a non-empty result exactly when the URL contains a
15–18 character alphanumeric run enclosed by `'/'` on both sides, and the
returned string is such an enclosed run; on a URL with no such enclosed
run (including when the only candidate segment ends the URL) it returns
the empty string. -/
theorem getCurrentRecordId_spec (url : String) :
    (getCurrentRecordId url ≠ "" → EnclosedRecordId url (getCurrentRecordId url).data)
    ∧ ((∃ run, EnclosedRecordId url run) → getCurrentRecordId url ≠ "") := by
  constructor
  · intro hne
    cases hscan : scanRecordId url.data with
    | none =>
      exfalso
      apply hne
      show (⟨(scanRecordId url.data).getD []⟩ : String) = ""
      rw [hscan]
      rfl
    | some run =>
      have hval : getCurrentRecordId url = ⟨run⟩ := by
        show (⟨(scanRecordId url.data).getD []⟩ : String) = ⟨run⟩
        rw [hscan]
        rfl
      rw [hval]
      obtain ⟨a, b, heq, h15, h18, hall⟩ := scanRecordId_sound url.data run hscan
      exact ⟨a, b, heq, h15, h18, hall⟩
  · rintro ⟨run, a, b, heq, h15, h18, hall⟩
    have hsome : (scanRecordId url.data).isSome = true := by
      rw [heq]
      exact scanRecordId_complete a run b h15 h18 hall
    cases hscan : scanRecordId url.data with
    | none => rw [hscan] at hsome; simp at hsome
    | some found =>
      obtain ⟨a', b', heq', h15', h18', hall'⟩ := scanRecordId_sound url.data found hscan
      intro hempty
      have hval : getCurrentRecordId url = ⟨found⟩ := by
        show (⟨(scanRecordId url.data).getD []⟩ : String) = ⟨found⟩
        rw [hscan]
        rfl
      rw [hval] at hempty
      have hf : found = [] := congrArg String.data hempty
      rw [hf] at h15'
      simp at h15'

/-- Witness for `getCurrentRecordId_spec`: a record-view URL from which the
extracted identifier is a slash-enclosed 15-character alphanumeric run. -/
theorem getCurrentRecordId_spec_witness :
    EnclosedRecordId "https://x.example/lightning/r/Opportunity/006AB0000012Xyz/view"
      (getCurrentRecordId "https://x.example/lightning/r/Opportunity/006AB0000012Xyz/view").data :=
  (getCurrentRecordId_spec "https://x.example/lightning/r/Opportunity/006AB0000012Xyz/view").1
    (by decide)

/-- C4: for every visible banner, `waitForToast('success')` raises the
severity mismatch when the banner's style classification is `error`, and
returns the banner's message text unchanged when the classification is
`success`. -/
theorem waitForToast_severity_check (env : ToastEnv) (h : env.appeared = true) :
    (classifiedSeverity env.banner = some .error →
      waitForToast (some .success) env = .error .severityMismatch)
    ∧ (∀ m, classifiedSeverity env.banner = some .success →
        env.banner.messageText = some m →
        waitForToast (some .success) env = .ok m) := by
  constructor
  · intro hcls
    rcases hc : env.banner.notifyClass with _ | cls
    · simp [classifiedSeverity, hc] at hcls
    · by_cases hEmpty : cls = ""
      · simp [classifiedSeverity, hc, hEmpty] at hcls
      · cases hs : strHas cls (typeMap .success) with
        | true => simp [classifiedSeverity, hc, hEmpty, hs] at hcls
        | false => simp [waitForToast, h, hc, hEmpty, hs]
  · intro m hcls hmsg
    rcases hc : env.banner.notifyClass with _ | cls
    · simp [classifiedSeverity, hc] at hcls
    · by_cases hEmpty : cls = ""
      · simp [classifiedSeverity, hc, hEmpty] at hcls
      · cases hs : strHas cls (typeMap .success) with
        | false =>
          simp only [classifiedSeverity, hc, hEmpty, hs] at hcls
          split_ifs at hcls <;> simp_all
        | true => simp [waitForToast, h, hc, hEmpty, hs, hmsg]

/-- Witness for `waitForToast_severity_check`: an error-styled banner under
an expected `success` severity yields the mismatch error. -/
theorem waitForToast_severity_check_witness :
    waitForToast (some .success) errorToastEnv = .error .severityMismatch :=
  (waitForToast_severity_check errorToastEnv (by decide)).1 (by decide)

/-- C5: `clickButton` raises `Button ... not found` exactly when no
structural strategy has a visible match (so it never silently no-ops, and
the error is raised only once every strategy has been exhausted), and
`fillTextInput` raises `Input field ... not found` exactly when none of its
six strategies — the five input selectors plus the click-label-and-type
fallback — has a visible match. -/
theorem locate_error_exhaustive (page : UIPage) (label value : String) :
    ((∀ s ∈ buttonSelectors label, page.visible s = false) ↔
      clickButton page label = .error (.buttonNotFound label))
    ∧ ((∀ s ∈ textStrategies label, page.visible s = false) ↔
      fillTextInput page label value = .error (.fieldNotFound label)) := by
  constructor
  · constructor
    · intro hall
      have hnone : (buttonSelectors label).find? page.visible = none :=
        List.find?_eq_none.mpr fun x hx => by simp [hall x hx]
      simp [clickButton, hnone]
    · intro herr s hs
      cases hf : (buttonSelectors label).find? page.visible with
      | none =>
        have hns := List.find?_eq_none.mp hf s hs
        simpa using hns
      | some sel => simp [clickButton, hf] at herr
  · constructor
    · intro hall
      have h5 : (textInputSelectors label).find? page.visible = none :=
        List.find?_eq_none.mpr fun x hx => by
          simp [hall x (by simp [textStrategies, hx])]
      have hfb : page.visible (textLabelFallback label) = false :=
        hall _ (by simp [textStrategies])
      simp [fillTextInput, h5, hfb]
    · intro herr s hs
      cases hf : (textInputSelectors label).find? page.visible with
      | some sel => simp [fillTextInput, hf] at herr
      | none =>
        by_cases hfb : page.visible (textLabelFallback label) = true
        · simp [fillTextInput, hf, hfb] at herr
        · have hfb' : page.visible (textLabelFallback label) = false := by
            simpa using hfb
          have hs' : s ∈ textInputSelectors label ∨ s = textLabelFallback label := by
            simpa [textStrategies] using hs
          rcases hs' with h1 | h2
          · have hns := List.find?_eq_none.mp hf s h1
            simpa using hns
          · rw [h2]; exact hfb'

/-- Witness for `locate_error_exhaustive`: on a page with no visible
matches, both operations raise their not-found errors. -/
theorem locate_error_exhaustive_witness :
    clickButton noMatchPage "Save" = .error (.buttonNotFound "Save")
    ∧ fillTextInput noMatchPage "Amount" "100" = .error (.fieldNotFound "Amount") :=
  ⟨(locate_error_exhaustive noMatchPage "Save" "100").1.mp fun _ _ => rfl,
   (locate_error_exhaustive noMatchPage "Amount" "100").2.mp fun _ _ => rfl⟩

/-- C9: both locate operations act on the first visible match in strategy
declaration order and never merge results across strategies: a successful
`clickButton` acted on exactly the first strategy in `buttonSelectors`
order with a visible match (and conversely), and a successful
`fillTextInput` acted on exactly the first strategy in its six-strategy
order with a visible match. -/
theorem first_visible_strategy_wins (page : UIPage) (label value sel : String) :
    (clickButton page label = .ok sel ↔
      ∃ l₁ l₂, buttonSelectors label = l₁ ++ sel :: l₂ ∧ page.visible sel = true ∧
        ∀ s ∈ l₁, page.visible s = false)
    ∧ (∀ act, fillTextInput page label value = .ok act →
        ∃ l₁ l₂, textStrategies label = l₁ ++ fillSelector act :: l₂ ∧
          page.visible (fillSelector act) = true ∧ ∀ s ∈ l₁, page.visible s = false) := by
  constructor
  · constructor
    · intro hok
      cases hf : (buttonSelectors label).find? page.visible with
      | none => simp [clickButton, hf] at hok
      | some s0 =>
        have hsel : s0 = sel := by
          simp [clickButton, hf] at hok
          exact hok
        subst hsel
        exact (find?_eq_some_first page.visible (buttonSelectors label) s0).mp hf
    · intro hdecomp
      have hf : (buttonSelectors label).find? page.visible = some sel :=
        (find?_eq_some_first page.visible (buttonSelectors label) sel).mpr hdecomp
      simp [clickButton, hf]
  · intro act hok
    cases hf : (textInputSelectors label).find? page.visible with
    | some s0 =>
      have hact : FillAction.clearAndFill s0 value = act := by
        simp [fillTextInput, hf] at hok
        exact hok
      subst hact
      obtain ⟨l₁, l₂, heq, hvis, hall⟩ :=
        (find?_eq_some_first page.visible (textInputSelectors label) s0).mp hf
      refine ⟨l₁, l₂ ++ [textLabelFallback label], ?_, hvis, hall⟩
      simp [textStrategies, heq, fillSelector]
    | none =>
      by_cases hfb : page.visible (textLabelFallback label) = true
      · have hact : FillAction.clickAndType (textLabelFallback label) value = act := by
          simp [fillTextInput, hf, hfb] at hok
          exact hok
        subst hact
        refine ⟨textInputSelectors label, [], by simp [textStrategies, fillSelector], hfb, ?_⟩
        intro s hs
        have hns := List.find?_eq_none.mp hf s hs
        simpa using hns
      · simp [fillTextInput, hf, hfb] at hok

/-- Witness for `first_visible_strategy_wins`: on a page where only the
`[title="Save"]` pattern matches, the clicked strategy is that pattern,
with every earlier strategy invisible. -/
theorem first_visible_strategy_wins_witness :
    ∃ l₁ l₂, buttonSelectors "Save" = l₁ ++ "[title=\"Save\"]" :: l₂ ∧
      (UIPage.mk fun s => s == "[title=\"Save\"]").visible "[title=\"Save\"]" = true ∧
      ∀ s ∈ l₁, (UIPage.mk fun s => s == "[title=\"Save\"]").visible s = false :=
  ((first_visible_strategy_wins (UIPage.mk fun s => s == "[title=\"Save\"]")
      "Save" "v" "[title=\"Save\"]").1).mp (by decide)

/-- C6 (counterexample): the option-selection step of `fillCombobox` is not
an exact match on visible text: with a single rendered option whose
`data-value` is `Other` and whose visible text is `Prospecting Stage`,
filling value `Prospecting` selects that option even though neither its
text nor its value equals `Prospecting`. -/
theorem fillCombobox_substring_counterexample :
    fillCombobox allVisiblePage [⟨"Other", "Prospecting Stage"⟩] "Stage" "Prospecting"
      = .ok ⟨true, 500, ⟨"Other", "Prospecting Stage"⟩⟩
    ∧ ("Prospecting Stage" : String) ≠ "Prospecting"
    ∧ ("Other" : String) ≠ "Prospecting" := by
  refine ⟨by decide, by decide, by decide⟩

/-- C6 (amended): when the combobox container is located, `fillCombobox`
opens the control, waits the fixed 500 ms settle delay for option
rendering, and then clicks the first option whose `data-value` attribute
equals the given value exactly or whose visible text contains the value as
a (case-insensitive) substring — not necessarily an exact text match;
when no rendered option matches, the click on the empty option locator
raises a timeout error. -/
theorem fillCombobox_spec (page : UIPage) (options : List ComboOption)
    (label value : String) (hloc : comboLocate page label ≠ none) :
    (∀ o, options.find? (comboOptionMatches value) = some o →
        fillCombobox page options label value = .ok ⟨true, 500, o⟩)
    ∧ (options.find? (comboOptionMatches value) = none →
        fillCombobox page options label value
          = .error (.timeout (comboOptionSelector value)))
    ∧ ∀ o, (options.find? (comboOptionMatches value) = some o ↔
        ∃ l₁ l₂, options = l₁ ++ o :: l₂ ∧ comboOptionMatches value o = true ∧
          ∀ x ∈ l₁, comboOptionMatches value x = false) := by
  refine ⟨?_, ?_, ?_⟩
  · intro o ho
    cases hl : comboLocate page label with
    | none => exact absurd hl hloc
    | some s => simp [fillCombobox, hl, ho]
  · intro hnone
    cases hl : comboLocate page label with
    | none => exact absurd hl hloc
    | some s => simp [fillCombobox, hl, hnone]
  · intro o
    exact find?_eq_some_first (comboOptionMatches value) options o

/-- Witness for `fillCombobox_spec`: an exactly-matching option is found
and clicked after opening and the 500 ms settle delay. -/
theorem fillCombobox_spec_witness :
    fillCombobox allVisiblePage [⟨"Prospecting", "Prospecting"⟩] "Stage" "Prospecting"
      = .ok ⟨true, 500, ⟨"Prospecting", "Prospecting"⟩⟩ :=
  (fillCombobox_spec allVisiblePage [⟨"Prospecting", "Prospecting"⟩] "Stage" "Prospecting"
    (by decide)).1 ⟨"Prospecting", "Prospecting"⟩ (by decide)

/-- Success shape of the CLI `authenticate`: on success the returned
Credential is cached in the instance state and the token is non-empty. -/
theorem authenticate_ok_state (env : CliApi.CliEnv) (st : ApiState)
    (cred : Credential) (hok : (CliApi.authenticate env st).2 = .ok cred) :
    (CliApi.authenticate env st).1 = ⟨cred.accessToken, cred.instanceUrl⟩
    ∧ cred.accessToken ≠ "" := by
  rcases hp : env.provider with m | p
  · simp [CliApi.authenticate, hp] at hok
  · rcases p with _ | m | ⟨tok, inst⟩
    · simp [CliApi.authenticate, hp] at hok
    · simp [CliApi.authenticate, hp] at hok
    · rcases tok with _ | t
      · simp [CliApi.authenticate, hp] at hok
      · by_cases ht : t = ""
        · simp [CliApi.authenticate, hp, ht] at hok
        · rcases inst with _ | i
          · simp only [CliApi.authenticate, hp] at hok
            rw [if_neg ht] at hok
            simp only [Except.ok.injEq] at hok
            subst hok
            exact ⟨by simp [CliApi.authenticate, hp, ht], ht⟩
          · by_cases hi : i = ""
            · simp only [CliApi.authenticate, hp] at hok
              rw [if_neg ht] at hok
              simp only [hi, if_pos rfl, Except.ok.injEq] at hok
              subst hok
              exact ⟨by simp [CliApi.authenticate, hp, ht, hi], ht⟩
            · simp only [CliApi.authenticate, hp] at hok
              rw [if_neg ht] at hok
              simp only [if_neg hi, Except.ok.injEq] at hok
              subst hok
              exact ⟨by simp [CliApi.authenticate, hp, ht, hi], ht⟩

/-- C7: the CLI `authenticate` fails with a provider/source error when the
invocation fails or its output has no JSON or unparsable JSON, fails with
the credential-unavailable error when the parsed response carries no access
token (absent or falsy), and on success caches the returned Credential in
the instance state so that a subsequent `restCall` does not re-trigger
authentication. -/
theorem authenticate_error_classes (env : CliApi.CliEnv) (st : ApiState) :
    (∀ m, env.provider = .execFailure m →
      (CliApi.authenticate env st).2 = .error (.credentialSource m))
    ∧ (env.provider = .output .noJson →
      (CliApi.authenticate env st).2
        = .error (.credentialSource "No JSON found in SF CLI output"))
    ∧ (∀ m, env.provider = .output (.badJson m) →
      (CliApi.authenticate env st).2 = .error (.credentialSource m))
    ∧ (∀ inst, env.provider = .output (.parsed none inst) ∨
        env.provider = .output (.parsed (some "") inst) →
      (CliApi.authenticate env st).2
        = .error (.credentialUnavailable "No access token in SF CLI response"))
    ∧ (∀ cred, (CliApi.authenticate env st).2 = .ok cred →
        (CliApi.authenticate env st).1 = ⟨cred.accessToken, cred.instanceUrl⟩
        ∧ ∀ resp,
            (CliApi.restCall env resp (CliApi.authenticate env st).1).didAuthenticate
              = false) := by
  refine ⟨?_, ?_, ?_, ?_, ?_⟩
  · intro m hm; simp [CliApi.authenticate, hm]
  · intro hm; simp [CliApi.authenticate, hm]
  · intro m hm; simp [CliApi.authenticate, hm]
  · rintro inst (hm | hm) <;> simp [CliApi.authenticate, hm]
  · intro cred hok
    obtain ⟨hstate, hne⟩ := authenticate_ok_state env st cred hok
    refine ⟨hstate, fun resp => ?_⟩
    rw [hstate]
    simp [CliApi.restCall, hne]

/-- Witness for `authenticate_error_classes`: a failed provider invocation
surfaces as a source error. -/
theorem authenticate_error_classes_witness :
    (CliApi.authenticate ⟨.execFailure "spawnSync sf ENOENT", "https://cfg.example"⟩
        ⟨"", ""⟩).2
      = .error (.credentialSource "spawnSync sf ENOENT") :=
  (authenticate_error_classes ⟨.execFailure "spawnSync sf ENOENT", "https://cfg.example"⟩
    ⟨"", ""⟩).1 "spawnSync sf ENOENT" rfl

/-- The non-ok REST error message contains the response's status code. -/
theorem apiErrorMessage_has_status (status : Nat) (body : String) :
    strHas (CliApi.apiErrorMessage status body) (toString status) = true := by
  show hasSub (toString status).data (CliApi.apiErrorMessage status body).data = true
  simp only [CliApi.apiErrorMessage]
  rw [strData_append, strData_append, strData_append, List.append_assoc]
  exact hasSub_mid _ _ _

/-- The non-ok REST error message contains the response's body text. -/
theorem apiErrorMessage_has_body (status : Nat) (body : String) :
    strHas (CliApi.apiErrorMessage status body) body = true := by
  show hasSub body.data (CliApi.apiErrorMessage status body).data = true
  simp only [CliApi.apiErrorMessage]
  rw [strData_append, strData_append, strData_append]
  have h := hasSub_mid
    (("Salesforce API error: ".data ++ (toString status).data) ++ " - ".data) body.data []
  simpa using h

/-- C10: `restCall` triggers authentication exactly when no access token is
cached at call time; and — provided the lazy authentication step does not
itself fail — a 204 response resolves with the empty object and every
non-ok response raises an error whose message contains the status code and
the body text. -/
theorem restCall_spec (env : CliApi.CliEnv) (st : ApiState)
    (resp : CliApi.HttpResponse) :
    (CliApi.restCall env resp st).didAuthenticate = (st.accessToken == "")
    ∧ ((st.accessToken ≠ "" ∨ ∃ c, (CliApi.authenticate env st).2 = .ok c) →
        (resp.status = 204 →
          (CliApi.restCall env resp st).result = .ok .emptyObject)
        ∧ (CliApi.respOk resp = false →
            (CliApi.restCall env resp st).result
              = .error (.apiError (CliApi.apiErrorMessage resp.status resp.bodyText))
            ∧ strHas (CliApi.apiErrorMessage resp.status resp.bodyText)
                (toString resp.status) = true
            ∧ strHas (CliApi.apiErrorMessage resp.status resp.bodyText)
                resp.bodyText = true)) := by
  constructor
  · by_cases h : st.accessToken = ""
    · rcases hauth : CliApi.authenticate env st with ⟨st1, r⟩
      rcases r with e | c <;> simp [CliApi.restCall, h, hauth]
    · simp [CliApi.restCall, h]
  · intro hauthok
    have hres : (CliApi.restCall env resp st).result = CliApi.restResponse resp := by
      by_cases h : st.accessToken = ""
      · rcases hauthok with hne | ⟨c, hc⟩
        · exact absurd h hne
        · rcases hauth : CliApi.authenticate env st with ⟨st1, r⟩
          rw [hauth] at hc
          simp only at hc
          subst hc
          simp [CliApi.restCall, h, hauth]
      · simp [CliApi.restCall, h]
    constructor
    · intro h204
      have hOk : CliApi.respOk resp = true := by simp [CliApi.respOk, h204]
      rw [hres]
      simp [CliApi.restResponse, hOk, h204]
    · intro hnotok
      rw [hres]
      refine ⟨by simp [CliApi.restResponse, hnotok], ?_, ?_⟩
      · exact apiErrorMessage_has_status resp.status resp.bodyText
      · exact apiErrorMessage_has_body resp.status resp.bodyText

/-- Witness for `restCall_spec`: with a cached token, a 404 response with
body `Not Found` raises the API error built from status and body. -/
theorem restCall_spec_witness :
    (CliApi.restCall freshCliEnv ⟨404, "Not Found"⟩ cachedApiState).result
      = .error (.apiError (CliApi.apiErrorMessage 404 "Not Found")) :=
  (((restCall_spec freshCliEnv cachedApiState ⟨404, "Not Found"⟩).2
      (Or.inl (by decide))).2 (by decide)).1

/-- C8 (counterexample): the bounded visibility wait on the main content
region (`.oneContent, .desktop`) at the end of `waitForPageLoad` is not
among the three best-effort waits the claim names (network settling,
spinner clearing, notification dismissal), yet its timeout is also
swallowed: a run in which only that wait times out still returns
normally. -/
theorem pageLoad_content_wait_swallowed_counterexample :
    waitForPageLoad ⟨true, true, fun _ => true, false⟩ = .ok ()
    ∧ (PageLoadEnv.mk true true (fun _ => true) false).mainContentVisible = false :=
  ⟨rfl, rfl⟩

/-- C8 (amended): timeouts of every best-effort stability wait are
swallowed — the network-idle wait, all spinner waits, the main-content
visibility wait, and the toast dismissal click — while the
DOM-content-loaded wait inside `waitForPageLoad` and the toast-appearance
wait inside `waitForToast` propagate their timeouts as distinguishable
errors: `waitForSpinners` never errors, `waitForPageLoad` errors exactly
when the DOM-content-loaded wait times out, `waitForToast` propagates a
timeout error when the banner never appears, and `waitForToast` is
insensitive to the dismissal outcome. -/
theorem bestEffort_wait_boundaries :
    (∀ cleared, waitForSpinners cleared = .ok ())
    ∧ (∀ env : PageLoadEnv,
        waitForPageLoad env
          = if env.domContentLoaded = true then .ok ()
            else .error (.timeout "domcontentloaded"))
    ∧ (∀ ty banner closeOk,
        waitForToast ty ⟨false, banner, closeOk⟩
          = .error (.timeout "div.toastContainer"))
    ∧ (∀ ty appeared banner c₁ c₂,
        waitForToast ty ⟨appeared, banner, c₁⟩
          = waitForToast ty ⟨appeared, banner, c₂⟩) := by
  refine ⟨waitForSpinners_ok, ?_, ?_, ?_⟩
  · intro env
    rcases env with ⟨dom, net, sp, mc⟩
    cases dom <;>
      simp [waitForPageLoad, boundedWait, swallowTimeout_eq, waitForSpinners_ok,
        Except.bind]
  · intro ty banner closeOk
    simp [waitForToast]
  · intro ty appeared banner c₁ c₂
    rfl

end SF
